import Mathlib

/-!
Verification development for the codex app-server provider core
(transport client, tool activity tracker, stream emitter, notification
router, session). Definitions are shallow embeddings of the TypeScript
sources under src/: pure data transforms become Lean functions, stateful
classes become explicit state passing, and fallible paths return explicit
outcome values.
-/

namespace CodexAppServer

/-- An id value on the wire: the remote side is inconsistent about
numeric-looking ids, sending them sometimes as JSON strings and sometimes
as JSON numbers. The router in src/src/stream compares them after applying
the JavaScript String(...) conversion. -/
inductive IdVal where
  | str (s : String)
  | num (n : Int)
deriving DecidableEq, Repr

/-- JavaScript String(x) applied to an id value (integers render without
a decimal point, matching String(7) = "7"). -/
def IdVal.norm : IdVal → String
  | .str s => s
  | .num n => toString n

/-- A JSON value (no floating point; the embedded protocol fields are
strings and integers). -/
inductive Json where
  | null
  | bool (b : Bool)
  | num (n : Int)
  | str (s : String)
  | arr (xs : List Json)
  | obj (fields : List (String × Json))

/-- JavaScript truthiness of a JSON value. -/
def Json.truthy : Json → Bool
  | .null => false
  | .bool b => b
  | .num n => n != 0
  | .str s => s != ""
  | .arr _ => true
  | .obj _ => true

mutual

/-- JSON.stringify on a JSON value (string escaping elided; every string
appearing in this development is escape free). -/
def Json.render : Json → String
  | .null => "null"
  | .bool true => "true"
  | .bool false => "false"
  | .num n => toString n
  | .str s => "\"" ++ s ++ "\""
  | .arr xs => "[" ++ Json.renderElems xs ++ "]"
  | .obj fs => "\x7b" ++ Json.renderFields fs ++ "\x7d"

/-- Comma separated rendering of array elements. -/
def Json.renderElems : List Json → String
  | [] => ""
  | [x] => x.render
  | x :: rest => x.render ++ "," ++ Json.renderElems rest

/-- Comma separated rendering of object fields. -/
def Json.renderFields : List (String × Json) → String
  | [] => ""
  | [(k, v)] => "\"" ++ k ++ "\":" ++ v.render
  | (k, v) :: rest => "\"" ++ k ++ "\":" ++ v.render ++ "," ++ Json.renderFields rest

end

/-- safeJsonStringify from src/src/converters/prompt-converter.ts:
undefined maps to the empty string, a string value is returned as is,
anything else is JSON.stringify output. -/
def safeJsonStringify : Option Json → String
  | none => ""
  | some (.str s) => s
  | some j => j.render

/-- A protocol value that is either a plain string or an array of strings
(the reasoning item summary and content fields admit both shapes). -/
inductive StrVal where
  | str (s : String)
  | arr (xs : List String)
deriving DecidableEq, Repr

/-- Array.isArray(v) ? v.join("\n") : v -/
def StrVal.joinNl : StrVal → String
  | .str s => s
  | .arr xs => String.intercalate "\n" xs

/-- JavaScript truthiness of an optional string (undefined and the empty
string are falsy). -/
def strTruthy : Option String → Bool
  | none => false
  | some s => s != ""

/-- A turn item as the loosely typed record shape of the protocol TurnItem
union (src/src/protocol): the type tag is kept as a raw string because the
code compares it case insensitively, and fields of variants other than the
actual one are simply absent. Optional numeric fields model the defined
case; a JSON null value for them is outside the model. -/
structure RawItem where
  type : String
  id : String
  text : Option String := none
  summary : Option StrVal := none
  content : Option StrVal := none
  command : Option String := none
  cwd : Option String := none
  status : Option String := none
  aggregatedOutput : Option String := none
  exitCode : Option Int := none
  durationMs : Option Int := none
  processId : Option Int := none
  server : Option String := none
  tool : Option String := none
  arguments : Option Json := none
  mcpResult : Option Json := none
  mcpError : Option Json := none
  changes : Option Json := none
  query : Option String := none

/-! Tool activity tracker, from src/src/stream/tool-tracker.ts. -/

/-- Case normalization of the type tag (the remote protocol has emitted
both PascalCase and lowercase tags across versions): type.toLowerCase(),
written as a character map over the string data (the protocol tags are
ASCII). -/
def normalizeToolType (type : String) : String :=
  String.mk (type.data.map Char.toLower)

/-- The tool shaped item tags. -/
def TOOL_TYPES : List String := ["commandexecution", "filechange", "mcptoolcall", "websearch"]

/-- isToolItem from tool-tracker.ts. -/
def isToolItem (item : RawItem) : Bool :=
  TOOL_TYPES.contains (normalizeToolType item.type)

/-- Result of resolveToolName: a display name and the dynamic flag
(undefined in the source collapses to false). -/
structure ResolvedTool where
  toolName : String
  dynamic : Bool
deriving DecidableEq, Repr

/-- JavaScript template interpolation of a possibly undefined string. -/
def strOrUndefined : Option String → String
  | some s => s
  | none => "undefined"

/-- resolveToolName from tool-tracker.ts. -/
def resolveToolName (item : RawItem) : ResolvedTool :=
  let type := normalizeToolType item.type
  if type == "commandexecution" then ⟨"exec", false⟩
  else if type == "filechange" then ⟨"patch", false⟩
  else if type == "websearch" then ⟨"web_search", false⟩
  else if type == "mcptoolcall" then
    ⟨"mcp__" ++ strOrUndefined item.server ++ "__" ++ strOrUndefined item.tool, true⟩
  else ⟨"tool", false⟩

/-- Helper: an object field that is dropped when the source value is
undefined, matching how JSON.stringify treats undefined fields. -/
def optStrField (k : String) : Option String → List (String × Json)
  | some s => [(k, .str s)]
  | none => []

/-- Helper for optional integer fields. -/
def optIntField (k : String) : Option Int → List (String × Json)
  | some n => [(k, .num n)]
  | none => []

/-- Helper for optional JSON fields. -/
def optJsonField (k : String) : Option Json → List (String × Json)
  | some j => [(k, j)]
  | none => []

/-- buildToolInputPayload from tool-tracker.ts, as the JSON object that is
then passed to safeJsonStringify. -/
def buildToolInputPayload (item : RawItem) : Option Json :=
  let type := normalizeToolType item.type
  if type == "commandexecution" then
    some (.obj (optStrField "command" item.command ++ optStrField "cwd" item.cwd ++
                optStrField "status" item.status))
  else if type == "filechange" then
    some (.obj (optJsonField "changes" item.changes ++ optStrField "status" item.status))
  else if type == "mcptoolcall" then
    some (.obj (optStrField "server" item.server ++ optStrField "tool" item.tool ++
                optJsonField "arguments" item.arguments ++ optStrField "status" item.status))
  else if type == "websearch" then
    some (.obj (optStrField "query" item.query))
  else none

/-- The pair returned by buildToolResultPayload; in the source the error
flag is either true or undefined, which collapses to a boolean here. -/
structure ToolResultPayload where
  result : Json
  isError : Bool

/-- JavaScript truthiness of an optional JSON value. -/
def jsonTruthy : Option Json → Bool
  | none => false
  | some j => j.truthy

/-- buildToolResultPayload from tool-tracker.ts. -/
def buildToolResultPayload (item : RawItem) : ToolResultPayload :=
  let type := normalizeToolType item.type
  if type == "commandexecution" then
    { result := .obj (optStrField "command" item.command ++ optStrField "cwd" item.cwd ++
        optStrField "status" item.status ++
        optStrField "aggregatedOutput" item.aggregatedOutput ++
        optIntField "exitCode" item.exitCode ++ optIntField "durationMs" item.durationMs ++
        optIntField "processId" item.processId)
      isError := item.exitCode.isSome && item.exitCode != some 0 }
  else if type == "filechange" then
    { result := .obj (optJsonField "changes" item.changes ++ optStrField "status" item.status)
      isError := false }
  else if type == "mcptoolcall" then
    { result := .obj (optStrField "server" item.server ++ optStrField "tool" item.tool ++
        optStrField "status" item.status ++ optJsonField "result" item.mcpResult ++
        optJsonField "error" item.mcpError ++ optIntField "durationMs" item.durationMs)
      isError := jsonTruthy item.mcpError }
  else if type == "websearch" then
    { result := .obj (optStrField "query" item.query), isError := false }
  else
    { result := .obj [], isError := false }

/-- The entry stored by the tracker for an in flight tool item. -/
structure ToolInfo where
  toolName : String
  input : String
  dynamic : Bool

/-- The ToolTracker Map, as an association list with Map semantics: set
replaces the binding of an existing key, delete removes the key. -/
structure ToolTracker where
  activeTools : List (String × ToolInfo)

/-- Lookup of Map.get on the association list. -/
def lookupTool (l : List (String × ToolInfo)) (itemId : String) : Option ToolInfo :=
  match l.find? (fun p => p.1 == itemId) with
  | some p => some p.2
  | none => none

/-- ToolTracker.start: resolve the name, serialize the input snapshot,
store the entry under the item id and return it. -/
def ToolTracker.start (t : ToolTracker) (item : RawItem) : ToolInfo × ToolTracker :=
  let r := resolveToolName item
  let input := safeJsonStringify (buildToolInputPayload item)
  let info : ToolInfo := ⟨r.toolName, input, r.dynamic⟩
  (info, ⟨(item.id, info) :: t.activeTools.filter (fun p => p.1 != item.id)⟩)

/-- ToolTracker.complete: remove and return the stored entry, or none if
no entry was stored. -/
def ToolTracker.complete (t : ToolTracker) (itemId : String) : Option ToolInfo × ToolTracker :=
  (lookupTool t.activeTools itemId, ⟨t.activeTools.filter (fun p => p.1 != itemId)⟩)

/-! Stream emitter, from src/src/stream/stream-emitter.ts. -/

/-- Tool execution statistics accumulated during a turn. -/
structure ToolExecutionStats where
  totalCalls : Nat
  commands : Nat
  fileChanges : Nat
  mcpTools : Nat
  webSearches : Nat
  totalDurationMs : Int
deriving DecidableEq, Repr

/-- The all zero statistics record a fresh emitter starts with. -/
def ToolExecutionStats.zero : ToolExecutionStats := ⟨0, 0, 0, 0, 0, 0⟩

/-- Raw usage metadata attached to the finish event (the app server does
not provide token counts, so this record is what is available). -/
structure CodexUsageMetadata where
  model : String
  threadId : String
  turnId : String
  status : String
  toolStats : ToolExecutionStats
  hasReasoning : Bool
  completedAt : String
deriving DecidableEq, Repr

/-- The inputTokens block of a usage record. -/
structure InputTokens where
  total : Nat
  noCache : Option Nat
  cacheRead : Option Nat
  cacheWrite : Option Nat
deriving DecidableEq, Repr

/-- The outputTokens block of a usage record. -/
structure OutputTokens where
  total : Nat
  text : Option Nat
  reasoning : Option Nat
deriving DecidableEq, Repr

/-- A LanguageModelV3Usage record as populated by this provider. -/
structure Usage where
  inputTokens : InputTokens
  outputTokens : OutputTokens
  raw : Option CodexUsageMetadata
deriving DecidableEq, Repr

/-- createUsage from stream-emitter.ts: token totals are hard zeros and
the metadata goes into the raw field. -/
def createUsage (metadata : Option CodexUsageMetadata) : Usage :=
  { inputTokens := ⟨0, none, none, none⟩
    outputTokens := ⟨0, none, none⟩
    raw := metadata }

/-- The structured error attached to a failed turn. -/
structure TurnError where
  code : Option String := none
  message : Option String := none
  codexErrorInfo : Option String := none
  additionalDetails : Option Json := none

/-- JSON.stringify view of a turn error (undefined fields dropped). -/
def TurnError.toJson (e : TurnError) : Json :=
  .obj (optStrField "code" e.code ++ optStrField "message" e.message ++
        optStrField "codexErrorInfo" e.codexErrorInfo ++
        optJsonField "additionalDetails" e.additionalDetails)

/-- A LanguageModelV3FinishReason value. -/
structure FinishReason where
  unified : String
  raw : Option String

/-- mapFinishReason from stream-emitter.ts. -/
def mapFinishReason (status : Option String) (error : Option TurnError) : FinishReason :=
  match status with
  | some "completed" => ⟨"stop", status⟩
  | some "interrupted" => ⟨"stop", status⟩
  | some "failed" =>
    ⟨"error", match error with
      | some e => some e.toJson.render
      | none => status⟩
  | _ => ⟨"other", status⟩

/-- The ordered output events written onto the outward stream
(LanguageModelV3StreamPart as produced by this provider; the raw part
keeps only the notification method, and response metadata keeps the ids
while the wall clock timestamp is elided). The reasoning delta carries its
provider metadata presence: some true models the attached
providerMetadata.codex.isSummary annotation, none models its absence. -/
inductive StreamPart where
  | streamStart (warnings : List String)
  | responseMetadata (id : String) (modelId : String) (sessionId : String)
  | raw (method : String)
  | textStart (id : String)
  | textDelta (id : String) (delta : String)
  | textEnd (id : String)
  | reasoningStart (id : String)
  | reasoningDelta (id : String) (delta : String) (summaryMeta : Option Bool)
  | reasoningEnd (id : String)
  | toolInputStart (id : String) (toolName : String) (dynamic : Bool)
  | toolInputDelta (id : String) (delta : String)
  | toolInputEnd (id : String)
  | toolCall (toolCallId : String) (toolName : String) (input : String) (dynamic : Bool)
  | toolResult (toolCallId : String) (toolName : String) (result : Json)
      (isError : Bool) (dynamic : Bool)
  | toolApprovalRequest (approvalId : String) (toolCallId : String)
  | finish (finishReason : FinishReason) (usage : Usage)

/-- StreamEmitterOptions, plus a stand in for the wall clock reading used
by new Date().toISOString() at finish time. -/
structure StreamEmitterOptions where
  threadId : String
  turnId : String
  modelId : String
  includeRawChunks : Bool := false
  now : String := ""

/-- The mutable fields of a StreamEmitter instance; textId and
reasoningId are the two stable identifiers generated once per stream. -/
structure EmitterState where
  textId : String
  reasoningId : String
  textStarted : Bool := false
  reasoningStarted : Bool := false
  toolStats : ToolExecutionStats := ToolExecutionStats.zero

/-- emitStreamStart: the stream start event followed by the response
metadata event. -/
def emitStreamStart (opts : StreamEmitterOptions) (s : EmitterState)
    (warnings : List String) : EmitterState × List StreamPart :=
  (s, [.streamStart warnings, .responseMetadata opts.turnId opts.modelId opts.threadId])

/-- emitRaw: forwards the notification as a raw chunk only when raw
chunks were requested. -/
def emitRaw (opts : StreamEmitterOptions) (s : EmitterState)
    (method : String) : EmitterState × List StreamPart :=
  (s, if opts.includeRawChunks then [.raw method] else [])

/-- emitTextDelta: lazily writes the text segment open event exactly once
before the first delta. -/
def emitTextDelta (s : EmitterState) (delta : String) : EmitterState × List StreamPart :=
  if s.textStarted then (s, [.textDelta s.textId delta])
  else ({ s with textStarted := true }, [.textStart s.textId, .textDelta s.textId delta])

/-- emitReasoningDelta: lazily opens the reasoning segment; the summary
flag is carried as the out of band metadata annotation and the payload is
the input text unchanged. -/
def emitReasoningDelta (s : EmitterState) (delta : String) (isSummary : Bool) :
    EmitterState × List StreamPart :=
  let part := StreamPart.reasoningDelta s.reasoningId delta
    (if isSummary then some true else none)
  if s.reasoningStarted then (s, [part])
  else ({ s with reasoningStarted := true }, [.reasoningStart s.reasoningId, part])

/-- emitToolInput: input start, the serialized input as one delta when
non empty, then input end. -/
def emitToolInput (s : EmitterState) (toolCallId toolName input : String)
    (dynamic : Bool) : EmitterState × List StreamPart :=
  (s, [.toolInputStart toolCallId toolName dynamic] ++
      (if input != "" then [.toolInputDelta toolCallId input] else []) ++
      [.toolInputEnd toolCallId])

/-- emitToolCall. -/
def emitToolCall (s : EmitterState) (toolCallId toolName input : String)
    (dynamic : Bool) : EmitterState × List StreamPart :=
  (s, [.toolCall toolCallId toolName input dynamic])

/-- emitToolResult. -/
def emitToolResult (s : EmitterState) (toolCallId toolName : String)
    (result : Json) (isError dynamic : Bool) : EmitterState × List StreamPart :=
  (s, [.toolResult toolCallId toolName result isError dynamic])

/-- emitApprovalRequest: keyed by the item id for both the approval id
and the tool call id. -/
def emitApprovalRequest (s : EmitterState) (itemId : String) :
    EmitterState × List StreamPart :=
  (s, [.toolApprovalRequest itemId itemId])

/-- recordToolExecution from stream-emitter.ts. -/
def recordToolExecution (s : EmitterState) (toolType : String)
    (durationMs : Option Int) : EmitterState :=
  let st := s.toolStats
  let st := { st with totalCalls := st.totalCalls + 1 }
  let st :=
    if toolType == "command" then { st with commands := st.commands + 1 }
    else if toolType == "fileChange" then { st with fileChanges := st.fileChanges + 1 }
    else if toolType == "mcpTool" then { st with mcpTools := st.mcpTools + 1 }
    else if toolType == "webSearch" then { st with webSearches := st.webSearches + 1 }
    else st
  let st :=
    match durationMs with
    | some d => if d > 0 then { st with totalDurationMs := st.totalDurationMs + d } else st
    | none => st
  { s with toolStats := st }

/-- The first step of emitFinish: when a structured error with a truthy
message is present and no text segment was ever opened, synthesize a text
delta from the error message (plus diagnostic text when truthy). -/
def synthesizeErrorText (s : EmitterState) (error : Option TurnError) :
    EmitterState × List StreamPart :=
  match error with
  | some e =>
    match e.message with
    | some msg =>
      if msg != "" && !s.textStarted then
        let errorText :=
          match e.codexErrorInfo with
          | some info =>
            if info != "" then "Error: " ++ msg ++ "\n\n" ++ info
            else "Error: " ++ msg
          | none => "Error: " ++ msg
        emitTextDelta s errorText
      else (s, [])
    | none => (s, [])
  | none => (s, [])

/-- emitFinish: synthesize the error text if needed, then close any
opened segments (text, then reasoning) exactly once each, then write the
terminal finish event carrying the mapped finish reason and the usage
record with the turn metadata in its raw field. -/
def emitFinish (opts : StreamEmitterOptions) (s : EmitterState)
    (status : Option String) (error : Option TurnError) :
    EmitterState × List StreamPart :=
  let (s1, synth) := synthesizeErrorText s error
  let closes :=
    (if s1.textStarted then [StreamPart.textEnd s1.textId] else []) ++
    (if s1.reasoningStarted then [StreamPart.reasoningEnd s1.reasoningId] else [])
  let metadata : CodexUsageMetadata :=
    { model := opts.modelId
      threadId := opts.threadId
      turnId := opts.turnId
      status := status.getD "unknown"
      toolStats := s1.toolStats
      hasReasoning := s1.reasoningStarted
      completedAt := opts.now }
  (s1, synth ++ closes ++
    [.finish (mapFinishReason status error) (createUsage (some metadata))])

/-! Notification router, from the NotificationRouter in src/src/stream
(the revision consistent with codex-app-server-language-model.ts: ids are
compared after String(...) normalization, item ids that received a delta
are recorded, and turn completion passes the turn error through). The two
method name spellings of each delta notification run the identical
handler and are collapsed into one constructor; likewise the command and
file change approval notifications run identical handler bodies. -/

/-- The turn object embedded in a turn/completed notification. -/
structure TurnObj where
  id : IdVal
  status : String
  error : Option TurnError := none

/-- The server notifications consumed by the router. -/
inductive Notification where
  | agentMessageDelta (threadId turnId itemId : IdVal) (delta : String)
  | reasoningTextDelta (threadId turnId itemId : IdVal) (delta : String) (isSummary : Bool)
  | itemStarted (threadId turnId : IdVal) (item : RawItem)
  | itemCompleted (threadId turnId : IdVal) (item : RawItem)
  | requestApproval (threadId turnId : IdVal) (itemId : String)
  | turnCompleted (threadId : IdVal) (turn : TurnObj)

/-- The ownership comparison (a, b) => String(a) === String(b); the
tracked id b is already a string. -/
def sameId (a : IdVal) (b : String) : Bool := a.norm == b

/-- The router options: the (conversation, turn) identity pair it owns.
The onTurnCompleted callback is inlined into routerStep below as the
callback body installed by codex-app-server-language-model.ts, whose
stream relevant effect is emitter.emitFinish(status, error). -/
structure NotificationRouterOptions where
  threadId : String
  turnId : String

/-- Set.add on the string sets tracking which item ids received deltas. -/
def addToSet (l : List String) (x : String) : List String :=
  if l.contains x then l else l ++ [x]

/-- The mutable fields of a NotificationRouter instance. -/
structure RouterState where
  toolTracker : ToolTracker := ⟨[]⟩
  textItemIdsWithDelta : List String := []
  reasoningItemIdsWithDelta : List String := []

/-- Router plus emitter state, the state threaded through notification
processing. -/
structure SysState where
  router : RouterState
  emitter : EmitterState

/-- Processing of one notification by the subscribed handlers: the raw
chunk is forwarded first, then the ownership filter discards notifications
whose normalized ids do not match, then the handler body runs. -/
def routerStep (opts : NotificationRouterOptions) (eopts : StreamEmitterOptions)
    (st : SysState) (n : Notification) : SysState × List StreamPart :=
  match n with
  | .agentMessageDelta threadId turnId itemId delta =>
    let (e0, rawParts) := emitRaw eopts st.emitter "item/agentMessage/delta"
    if sameId threadId opts.threadId && sameId turnId opts.turnId then
      let r := { st.router with
        textItemIdsWithDelta := addToSet st.router.textItemIdsWithDelta itemId.norm }
      let (e1, parts) := emitTextDelta e0 delta
      (⟨r, e1⟩, rawParts ++ parts)
    else (⟨st.router, e0⟩, rawParts)
  | .reasoningTextDelta threadId turnId itemId delta isSummary =>
    let (e0, rawParts) := emitRaw eopts st.emitter "item/reasoning/textDelta"
    if sameId threadId opts.threadId && sameId turnId opts.turnId then
      let r := { st.router with
        reasoningItemIdsWithDelta := addToSet st.router.reasoningItemIdsWithDelta itemId.norm }
      let (e1, parts) := emitReasoningDelta e0 delta isSummary
      (⟨r, e1⟩, rawParts ++ parts)
    else (⟨st.router, e0⟩, rawParts)
  | .itemStarted threadId turnId item =>
    let (e0, rawParts) := emitRaw eopts st.emitter "item/started"
    if sameId threadId opts.threadId && sameId turnId opts.turnId then
      if isToolItem item then
        let (info, tracker) := st.router.toolTracker.start item
        let (e1, p1) := emitToolInput e0 item.id info.toolName info.input info.dynamic
        let (e2, p2) := emitToolCall e1 item.id info.toolName info.input info.dynamic
        (⟨{ st.router with toolTracker := tracker }, e2⟩, rawParts ++ p1 ++ p2)
      else (⟨st.router, e0⟩, rawParts)
    else (⟨st.router, e0⟩, rawParts)
  | .itemCompleted threadId turnId item =>
    let (e0, rawParts) := emitRaw eopts st.emitter "item/completed"
    if sameId threadId opts.threadId && sameId turnId opts.turnId then
      if isToolItem item then
        let (existing, tracker) := st.router.toolTracker.complete item.id
        let resolved : ResolvedTool :=
          match existing with
          | some info => ⟨info.toolName, info.dynamic⟩
          | none => resolveToolName item
        let payload := buildToolResultPayload item
        let (e1, parts) := emitToolResult e0 item.id resolved.toolName payload.result
          payload.isError resolved.dynamic
        (⟨{ st.router with toolTracker := tracker }, e1⟩, rawParts ++ parts)
      else if normalizeToolType item.type == "agentmessage" then
        if !st.router.textItemIdsWithDelta.contains item.id && strTruthy item.text then
          let (e1, parts) := emitTextDelta e0 (item.text.getD "")
          (⟨st.router, e1⟩, rawParts ++ parts)
        else (⟨st.router, e0⟩, rawParts)
      else if normalizeToolType item.type == "reasoning" then
        if !st.router.reasoningItemIdsWithDelta.contains item.id then
          let summary := item.summary.map StrVal.joinNl
          let content := item.content.map StrVal.joinNl
          let (e1, p1) :=
            if strTruthy summary then emitReasoningDelta e0 (summary.getD "") true
            else (e0, [])
          let (e2, p2) :=
            if strTruthy content then emitReasoningDelta e1 (content.getD "") false
            else (e1, [])
          (⟨st.router, e2⟩, rawParts ++ p1 ++ p2)
        else (⟨st.router, e0⟩, rawParts)
      else (⟨st.router, e0⟩, rawParts)
    else (⟨st.router, e0⟩, rawParts)
  | .requestApproval threadId turnId itemId =>
    let (e0, rawParts) := emitRaw eopts st.emitter "item/commandExecution/requestApproval"
    if sameId threadId opts.threadId && sameId turnId opts.turnId then
      let (e1, parts) := emitApprovalRequest e0 itemId
      (⟨st.router, e1⟩, rawParts ++ parts)
    else (⟨st.router, e0⟩, rawParts)
  | .turnCompleted threadId turn =>
    let (e0, rawParts) := emitRaw eopts st.emitter "turn/completed"
    if sameId threadId opts.threadId && sameId turn.id opts.turnId then
      let r := { st.router with
        textItemIdsWithDelta := ([] : List String)
        reasoningItemIdsWithDelta := ([] : List String) }
      let (e1, parts) := emitFinish eopts e0 (some turn.status) turn.error
      (⟨r, e1⟩, rawParts ++ parts)
    else (⟨st.router, e0⟩, rawParts)

/-- Processing of a sequence of notifications, accumulating output. -/
def routerRun (opts : NotificationRouterOptions) (eopts : StreamEmitterOptions)
    (st : SysState) : List Notification → SysState × List StreamPart
  | [] => (st, [])
  | n :: rest =>
    let (st1, parts) := routerStep opts eopts st n
    let (st2, more) := routerRun opts eopts st1 rest
    (st2, parts ++ more)

/-- Replacing every id of a notification by its normalized string form. -/
def Notification.normalizeIds : Notification → Notification
  | .agentMessageDelta t u i d => .agentMessageDelta (.str t.norm) (.str u.norm) (.str i.norm) d
  | .reasoningTextDelta t u i d b =>
    .reasoningTextDelta (.str t.norm) (.str u.norm) (.str i.norm) d b
  | .itemStarted t u item => .itemStarted (.str t.norm) (.str u.norm) item
  | .itemCompleted t u item => .itemCompleted (.str t.norm) (.str u.norm) item
  | .requestApproval t u i => .requestApproval (.str t.norm) (.str u.norm) i
  | .turnCompleted t turn => .turnCompleted (.str t.norm) { turn with id := .str turn.id.norm }

/-! Session, from src session.ts (SessionImpl). -/

/-- The mutable fields of a SessionImpl (the immutable thread id is kept
outside). -/
structure SessionState where
  turnId : Option String
  isActive : Bool
deriving DecidableEq, Repr

/-- The outcome of the awaited turn/interrupt request. -/
inductive InterruptOutcome where
  | ok
  | err (message : String)
deriving DecidableEq, Repr

/-- The observable result of one SessionImpl.interrupt() call: the state
of the session afterwards, the error propagated to the caller when the
awaited request rejected (none when the call returned normally), and
whether a turn/interrupt request was issued at all. -/
structure InterruptRun where
  state : SessionState
  thrown : Option String
  requestIssued : Bool
deriving DecidableEq, Repr

/-- SessionImpl.interrupt(): returns immediately when the session is not
active or has no truthy turn id; otherwise awaits the turn/interrupt
request and only after it resolves sets the active flag to false — a
rejection of the request propagates out of interrupt() with the active
flag left unchanged. -/
def SessionImpl.interrupt (s : SessionState) (outcome : InterruptOutcome) : InterruptRun :=
  if s.isActive && strTruthy s.turnId then
    match outcome with
    | .ok => ⟨{ s with isActive := false }, none, true⟩
    | .err m => ⟨s, some m, true⟩
  else ⟨s, none, false⟩

/-! Transport client pending request bookkeeping, from
src/src/app-server-client.ts (request, handleMessage and the timeout
callback). Continuations are represented by the outcome events they fire;
the pending map is represented by its key set since each entry is keyed
by a fresh unique id. -/

/-- Settlement of a pending request continuation. -/
inductive ReqOutcome where
  | resolved (id : String) (result : Json)
  | rejectedError (id : String) (message : String)
  | rejectedTimeout (id : String)

/-- The timeout callback installed by request(): it deletes the pending
entry and rejects with a timeout error. It can only ever run while the
entry is still pending, because a matching response clears the timer. -/
def fireTimeout (pending : List String) (id : String) : List String × List ReqOutcome :=
  (pending.filter (fun x => x != id), [.rejectedTimeout id])

/-- A line arriving from the subprocess, already parsed. -/
inductive IncomingMsg where
  | response (id : String) (result : Json)
  | errorResponse (id : String) (message : String)
  | notification (method : String)

/-- handleMessage: a message carrying an id settles the matching pending
request, if any — an id with no pending entry settles nothing and changes
nothing; a notification touches no pending state. -/
def handleMessage (pending : List String) (m : IncomingMsg) : List String × List ReqOutcome :=
  match m with
  | .response id result =>
    if pending.contains id then (pending.filter (fun x => x != id), [.resolved id result])
    else (pending, [])
  | .errorResponse id msg =>
    if pending.contains id then (pending.filter (fun x => x != id), [.rejectedError id msg])
    else (pending, [])
  | .notification _ => (pending, [])

/-! Arbitrary sequences of emitter calls within one turn, for the output
ordering invariants. Within one turn emitFinish runs at most once: the
turn completion handler that triggers it unsubscribes all notification
handlers before returning. -/

/-- One call into the StreamEmitter interface. -/
inductive EmitterCall where
  | streamStart (warnings : List String)
  | raw (method : String)
  | textDelta (delta : String)
  | reasoningDelta (delta : String) (isSummary : Bool)
  | toolInput (id toolName input : String) (dynamic : Bool)
  | toolCall (id toolName input : String) (dynamic : Bool)
  | toolResult (id toolName : String) (result : Json) (isError dynamic : Bool)
  | approval (itemId : String)
  | finish (status : Option String) (error : Option TurnError)

/-- Whether a call is emitFinish. -/
def EmitterCall.isFinish : EmitterCall → Bool
  | .finish _ _ => true
  | _ => false

/-- Dispatch of one emitter call. -/
def runCall (eopts : StreamEmitterOptions) (s : EmitterState) :
    EmitterCall → EmitterState × List StreamPart
  | .streamStart warnings => emitStreamStart eopts s warnings
  | .raw method => emitRaw eopts s method
  | .textDelta delta => emitTextDelta s delta
  | .reasoningDelta delta isSummary => emitReasoningDelta s delta isSummary
  | .toolInput id toolName input dynamic => emitToolInput s id toolName input dynamic
  | .toolCall id toolName input dynamic => emitToolCall s id toolName input dynamic
  | .toolResult id toolName result isError dynamic =>
    emitToolResult s id toolName result isError dynamic
  | .approval itemId => emitApprovalRequest s itemId
  | .finish status error => emitFinish eopts s status error

/-- Running a sequence of emitter calls, accumulating output. -/
def runCalls (eopts : StreamEmitterOptions) (s : EmitterState) :
    List EmitterCall → EmitterState × List StreamPart
  | [] => (s, [])
  | c :: rest =>
    let (s1, parts) := runCall eopts s c
    let (s2, more) := runCalls eopts s1 rest
    (s2, parts ++ more)

/-- Scanner flags: per segment kind, whether its open event and its close
event have been seen so far. -/
structure ScanFlags where
  textOpen : Bool
  textClosed : Bool
  reasoningOpen : Bool
  reasoningClosed : Bool
deriving DecidableEq, Repr

/-- One step of the well formedness scan: none signals a violation of the
segment invariants (a delta before its open event, a close without an
open, or a second close of the same kind). -/
def scanPart (f : ScanFlags) : StreamPart → Option ScanFlags
  | .textStart _ => some { f with textOpen := true }
  | .textDelta _ _ => if f.textOpen then some f else none
  | .textEnd _ =>
    if f.textOpen && !f.textClosed then some { f with textClosed := true } else none
  | .reasoningStart _ => some { f with reasoningOpen := true }
  | .reasoningDelta _ _ _ => if f.reasoningOpen then some f else none
  | .reasoningEnd _ =>
    if f.reasoningOpen && !f.reasoningClosed then some { f with reasoningClosed := true }
    else none
  | _ => some f

/-- Scan of a whole event list. -/
def scanParts (f : ScanFlags) : List StreamPart → Option ScanFlags
  | [] => some f
  | p :: rest =>
    match scanPart f p with
    | some f1 => scanParts f1 rest
    | none => none

/-- The segment invariants of an output event sequence: every text or
reasoning delta is preceded by the open event of its kind, a close event
of a kind appears only after its open event, and at most once. -/
def eventsWellFormed (parts : List StreamPart) : Bool :=
  (scanParts ⟨false, false, false, false⟩ parts).isSome

/-! Statement helpers: projections of the output event sequence. -/

/-- The payload of a text delta event, none for any other event. -/
def StreamPart.textPayload : StreamPart → Option String
  | .textDelta _ d => some d
  | _ => none

/-- Payload and out of band summary annotation of a reasoning delta
event, none for any other event. -/
def StreamPart.reasoningPayload : StreamPart → Option (String × Option Bool)
  | .reasoningDelta _ d m => some (d, m)
  | _ => none

/-- The tool lifecycle view of an event: the tool call id, whether it is
a result (as opposed to a call), and its error flag. -/
def StreamPart.toolEvent : StreamPart → Option (String × Bool × Bool)
  | .toolCall id _ _ _ => some (id, false, false)
  | .toolResult id _ _ isError _ => some (id, true, isError)
  | _ => none

/-- Helper: the last element of a list with an element appended. -/
theorem getLast?_append_singleton {α : Type} (l : List α) (a : α) :
    (l ++ [a]).getLast? = some a :=
  List.getLast?_concat l

/-- Helper: filtering away a key makes find? on that key fail. -/
theorem find?_filter_ne (l : List (String × ToolInfo)) (id : String) :
    (l.filter (fun p => p.1 != id)).find? (fun p => p.1 == id) = none := by
  induction l with
  | nil => rfl
  | cons hd tl ih =>
    by_cases hb : hd.1 = id
    · have hbe : (hd.1 != id) = false := by simp [hb]
      rw [List.filter_cons, hbe]
      exact ih
    · have hbe : (hd.1 == id) = false := beq_eq_false_iff_ne.mpr hb
      have hbn : (hd.1 != id) = true := by simp [bne, hbe]
      rw [List.filter_cons, hbn]
      simp only [if_true]
      rw [List.find?_cons_of_neg _ (by simp [hbe])]
      exact ih

/-- Helper: filtering away a key makes its lookup fail. -/
theorem lookupTool_filter_ne (l : List (String × ToolInfo)) (id : String) :
    lookupTool (l.filter (fun p => p.1 != id)) id = none := by
  unfold lookupTool
  rw [find?_filter_ne]

/-- C9. Tool Activity Tracker round trip: after start(item), a
complete(item.id) returns exactly the entry stored by start (same
resolved name, serialized input and dynamic flag) and removes it, so a
second complete(item.id) with no intervening start returns none. -/
theorem toolTracker_start_complete_roundtrip (t : ToolTracker) (item : RawItem) :
    ((t.start item).2.complete item.id).1 = some (t.start item).1 ∧
    (((t.start item).2.complete item.id).2.complete item.id).1 = none := by
  constructor
  · simp [ToolTracker.start, ToolTracker.complete, lookupTool, List.find?]
  · have h1 : (((t.start item).2.complete item.id).2 : ToolTracker).activeTools =
        (((item.id, (t.start item).1) ::
          t.activeTools.filter (fun p => p.1 != item.id)).filter (fun p => p.1 != item.id)) := by
      simp [ToolTracker.start, ToolTracker.complete]
    simp [ToolTracker.complete, h1, List.filter, lookupTool_filter_ne]

/-- C8. A reasoning delta emitted with a summary flag produces exactly
one reasoning delta event whose payload is byte identical to the input
text (no prefix or other mutation), with the summary flag carried out of
band as the metadata annotation alongside the delta. -/
theorem reasoning_delta_payload_identity (s : EmitterState) (delta : String)
    (isSummary : Bool) :
    ((emitReasoningDelta s delta isSummary).2.filterMap StreamPart.reasoningPayload) =
      [(delta, if isSummary then some true else none)] := by
  cases h : s.reasoningStarted <;>
    simp [emitReasoningDelta, h, StreamPart.reasoningPayload]

/-- C10. The terminal finish event of every turn reports zero input and
output token totals regardless of what happened during the turn, and the
real turn metadata (model, thread id, turn id, status, tool statistics,
reasoning flag, completion timestamp) is carried only in the usage
record's raw field. -/
theorem finish_usage_zero_tokens (opts : StreamEmitterOptions) (s : EmitterState)
    (status : Option String) (error : Option TurnError) :
    (emitFinish opts s status error).2.getLast? =
      some (.finish (mapFinishReason status error)
        { inputTokens := ⟨0, none, none, none⟩
          outputTokens := ⟨0, none, none⟩
          raw := some { model := opts.modelId, threadId := opts.threadId,
                        turnId := opts.turnId, status := status.getD "unknown",
                        toolStats := s.toolStats,
                        hasReasoning := s.reasoningStarted,
                        completedAt := opts.now } }) := by
  have hpres : (synthesizeErrorText s error).1.toolStats = s.toolStats ∧
      (synthesizeErrorText s error).1.reasoningStarted = s.reasoningStarted := by
    unfold synthesizeErrorText
    rcases error with _ | e
    · exact ⟨rfl, rfl⟩
    · rcases e with ⟨code, msg, info, extra⟩
      rcases msg with _ | m
      · exact ⟨rfl, rfl⟩
      · dsimp only
        split
        · cases h : s.textStarted <;> simp [emitTextDelta, h]
        · exact ⟨rfl, rfl⟩
  rcases hsp : synthesizeErrorText s error with ⟨s1, synth⟩
  rw [hsp] at hpres
  dsimp only at hpres
  unfold emitFinish
  rw [hsp]
  simp only [getLast?_append_singleton]
  rw [hpres.1, hpres.2]
  rfl

/-- Helper: filtering away an id makes contains false. -/
theorem contains_filter_ne (l : List String) (id : String) :
    (l.filter (fun x => x != id)).contains id = false := by
  induction l with
  | nil => rfl
  | cons hd tl ih =>
    by_cases hb : hd = id
    · have hbe : (hd != id) = false := by simp [hb]
      rw [List.filter_cons, hbe]
      exact ih
    · have hbe : (hd == id) = false := beq_eq_false_iff_ne.mpr hb
      have hid : (id == hd) = false := beq_eq_false_iff_ne.mpr (Ne.symm hb)
      have hbn : (hd != id) = true := by simp [bne, hbe]
      rw [List.filter_cons, hbn]
      simp only [if_true]
      rw [List.contains_cons, hid]
      simp only [Bool.false_or]
      exact ih

/-- C4. Transport client timeouts: the timeout callback of a request
rejects that request with a timeout error and removes its entry from the
pending request map, and a response (success or error frame) with that id
arriving after the timeout fired settles no continuation and changes
nothing (no leak, no double resolve). -/
theorem request_timeout_no_leak (pending : List String) (id : String) :
    (fireTimeout pending id).2 = [.rejectedTimeout id] ∧
    ((fireTimeout pending id).1.contains id = false) ∧
    (∀ res : Json, handleMessage (fireTimeout pending id).1 (.response id res) =
      ((fireTimeout pending id).1, [])) ∧
    (∀ msg : String, handleMessage (fireTimeout pending id).1 (.errorResponse id msg) =
      ((fireTimeout pending id).1, [])) := by
  refine ⟨rfl, ?_, ?_, ?_⟩
  · exact contains_filter_ne pending id
  · intro res
    simp [handleMessage, fireTimeout, contains_filter_ne]
  · intro msg
    simp [handleMessage, fireTimeout, contains_filter_ne]

/-- C6 counterexample. The claim states that interrupt() marks the
session idle regardless of the interrupt request's outcome and swallows a
failure of the request; on the code, for the concrete active session with
turn "t1" whose interrupt request rejects with "boom", the error
propagates to the caller of interrupt() and the session stays active. -/
theorem session_interrupt_error_propagates_cex :
    (SessionImpl.interrupt ⟨some "t1", true⟩ (.err "boom")).thrown = some "boom" ∧
    (SessionImpl.interrupt ⟨some "t1", true⟩ (.err "boom")).state.isActive = true := by
  constructor <;> rfl

/-- C6 amended. interrupt() is a no-op when the session is idle (no
request issued, state unchanged, no error); otherwise it issues an
interrupt turn request and marks the session idle only when that request
succeeds; a failure of the interrupt request propagates to the caller of
interrupt() with the session left active (the streaming abort path is the
code that catches and ignores it). -/
theorem session_interrupt_behavior :
    (∀ (s : SessionState) (o : InterruptOutcome),
      (s.isActive && strTruthy s.turnId) = false →
      SessionImpl.interrupt s o = ⟨s, none, false⟩) ∧
    (∀ s : SessionState, (s.isActive && strTruthy s.turnId) = true →
      SessionImpl.interrupt s .ok = ⟨{ s with isActive := false }, none, true⟩) ∧
    (∀ (s : SessionState) (m : String), (s.isActive && strTruthy s.turnId) = true →
      SessionImpl.interrupt s (.err m) = ⟨s, some m, true⟩) := by
  refine ⟨?_, ?_, ?_⟩
  · intro s o h
    simp [SessionImpl.interrupt, h]
  · intro s h
    simp [SessionImpl.interrupt, h]
  · intro s m h
    simp [SessionImpl.interrupt, h]

/-- C6 witness: the amended statement applied to a concrete active
session whose interrupt request fails. -/
theorem session_interrupt_behavior_witness :
    SessionImpl.interrupt ⟨some "t1", true⟩ (.err "x") =
      ⟨⟨some "t1", true⟩, some "x", true⟩ :=
  session_interrupt_behavior.2.2 ⟨some "t1", true⟩ "x" rfl

/-- C2. Every notification handled by the router (text delta, reasoning
delta, item started and completed, approval request, turn completion)
compares the notification's conversation and turn ids against the tracked
pair by normalized string form: processing is invariant under replacing
every id by its String(...) form, and in particular a notification whose
ids are numeric representations of the tracked string ids is processed
rather than discarded (the concrete second conjunct: a text delta with
numeric ids 7 and 8 against tracked strings "7" and "8" is emitted). -/
theorem router_id_comparison_normalized :
    (∀ (opts : NotificationRouterOptions) (eopts : StreamEmitterOptions)
       (st : SysState) (n : Notification),
      routerStep opts eopts st n.normalizeIds = routerStep opts eopts st n) ∧
    ((routerStep ⟨"7", "8"⟩ ⟨"7", "8", "codex", false, ""⟩
        ⟨⟨⟨[]⟩, [], []⟩, ⟨"txt", "rsn", false, false, ToolExecutionStats.zero⟩⟩
        (.agentMessageDelta (.num 7) (.num 8) (.num 1) "hi")).2.filterMap
        StreamPart.textPayload = ["hi"]) := by
  constructor
  · intro opts eopts st n
    cases n with
    | agentMessageDelta t u i d => rfl
    | reasoningTextDelta t u i d b => rfl
    | itemStarted t u item => rfl
    | itemCompleted t u item => rfl
    | requestApproval t u i => rfl
    | turnCompleted t turn => cases turn; rfl
  · rfl

/-- Helper: adding an element to the set makes contains true. -/
theorem contains_addToSet (l : List String) (x : String) :
    (addToSet l x).contains x = true := by
  by_cases h : x ∈ l <;> simp [addToSet, h]

/-- Helper: membership form of the previous lemma. -/
theorem mem_addToSet (l : List String) (x : String) : x ∈ addToSet l x := by
  by_cases h : x ∈ l <;> simp [addToSet, h]

/-- C7. The command execution tool result carries the error flag exactly
when an exit code is present and non-zero, and in the concrete scenario
where item/started for command execution item "i1" is followed by
item/completed for "i1" carrying exit code 1, the output contains the
tool-call for "i1" followed by the tool-result for "i1" with the error
flag set. -/
theorem command_execution_error_flag :
    (∀ item : RawItem, normalizeToolType item.type = "commandexecution" →
      ((buildToolResultPayload item).isError = true ↔
        item.exitCode ≠ none ∧ item.exitCode ≠ some 0)) ∧
    ((routerRun ⟨"th", "t1"⟩ ⟨"th", "t1", "codex", false, ""⟩
        ⟨⟨⟨[]⟩, [], []⟩, ⟨"txt", "rsn", false, false, ToolExecutionStats.zero⟩⟩
        [.itemStarted (.str "th") (.str "t1")
           { type := "commandExecution", id := "i1", command := some "ls",
             cwd := some "/w", status := some "inProgress" },
         .itemCompleted (.str "th") (.str "t1")
           { type := "commandExecution", id := "i1", command := some "ls",
             cwd := some "/w", status := some "failed", exitCode := some 1 }]).2.filterMap
        StreamPart.toolEvent = [("i1", false, false), ("i1", true, true)]) := by
  constructor
  · intro item h
    unfold buildToolResultPayload
    rw [h]
    rcases hx : item.exitCode with _ | c
    · simp
    · by_cases hc : c = 0
      · simp [hc]
      · simp [hc, bne_iff_ne]
  · rfl

/-- C7 witness: the general error flag equivalence applied at the
concrete completed command execution item with exit code 1. -/
theorem command_execution_error_flag_witness :
    (buildToolResultPayload
      { type := "commandExecution", id := "i1", command := some "ls",
        cwd := some "/w", status := some "failed", exitCode := some 1 }).isError = true :=
  ((command_execution_error_flag.1
    { type := "commandExecution", id := "i1", command := some "ls",
      cwd := some "/w", status := some "failed", exitCode := some 1 } rfl).mpr
    (by simp))

/-- Helper: the last element of an appended list whose right part has a
known last element. -/
theorem getLast?_append_left {α : Type} (l1 l2 : List α) (a : α)
    (h : l2.getLast? = some a) : (l1 ++ l2).getLast? = some a :=
  Option.mem_def.mp
    (@List.mem_getLast?_append_of_mem_getLast? _ l1 l2 a (Option.mem_def.mpr h))

/-- Helper: every emitFinish output ends in the finish event carrying the
mapped finish reason. -/
theorem emitFinish_getLast (opts : StreamEmitterOptions) (s : EmitterState)
    (status : Option String) (error : Option TurnError) :
    ∃ u : Usage, (emitFinish opts s status error).2.getLast? =
      some (.finish (mapFinishReason status error) u) := by
  rcases hsp : synthesizeErrorText s error with ⟨s1, synth⟩
  unfold emitFinish
  rw [hsp]
  exact ⟨_, getLast?_append_singleton _ _⟩

/-- C3. Whether an item received at least one delta during the turn is
recorded, and an agent message item whose completion arrives without any
prior delta has its full text emitted as a single delta: (recording)
after a text delta notification passes the ownership filter its item id
is in the tracked set; (fallback) a completed agent message item whose id
is not in the set and whose text is non empty emits exactly one text
delta carrying the full text; (dedup) a completed agent message item
whose id is in the set emits no text delta. -/
theorem item_delta_tracking_and_fallback :
    (∀ (opts : NotificationRouterOptions) (eopts : StreamEmitterOptions)
       (st : SysState) (t u i : IdVal) (delta : String),
      sameId t opts.threadId = true → sameId u opts.turnId = true →
      ((routerStep opts eopts st
        (.agentMessageDelta t u i delta)).1.router.textItemIdsWithDelta.contains i.norm)
        = true) ∧
    (∀ (opts : NotificationRouterOptions) (eopts : StreamEmitterOptions)
       (st : SysState) (item : RawItem) (txt : String),
      normalizeToolType item.type = "agentmessage" →
      item.text = some txt → txt ≠ "" →
      st.router.textItemIdsWithDelta.contains item.id = false →
      ((routerStep opts eopts st
        (.itemCompleted (.str opts.threadId) (.str opts.turnId) item)).2.filterMap
        StreamPart.textPayload) = [txt]) ∧
    (∀ (opts : NotificationRouterOptions) (eopts : StreamEmitterOptions)
       (st : SysState) (item : RawItem),
      normalizeToolType item.type = "agentmessage" →
      st.router.textItemIdsWithDelta.contains item.id = true →
      ((routerStep opts eopts st
        (.itemCompleted (.str opts.threadId) (.str opts.turnId) item)).2.filterMap
        StreamPart.textPayload) = []) := by
  refine ⟨?_, ?_, ?_⟩
  · intro opts eopts st t u i delta h1 h2
    simp [routerStep, emitRaw, emitTextDelta, h1, h2, contains_addToSet, mem_addToSet]
  · intro opts eopts st item txt htype htext hne hset
    have hto : isToolItem item = false := by
      unfold isToolItem
      rw [htype]
      decide
    have hsame : sameId (IdVal.str opts.threadId) opts.threadId = true := by
      simp [sameId, IdVal.norm]
    have hsame2 : sameId (IdVal.str opts.turnId) opts.turnId = true := by
      simp [sameId, IdVal.norm]
    have htxt : strTruthy (some txt) = true := by
      simpa [strTruthy, bne_iff_ne] using hne
    have hset2 : item.id ∉ st.router.textItemIdsWithDelta := by
      simpa using hset
    cases hraw : eopts.includeRawChunks <;> cases hts : st.emitter.textStarted <;>
      simp [routerStep, emitRaw, emitTextDelta, hsame, hsame2, hto, htype, htext, htxt,
        hset2, hraw, hts, StreamPart.textPayload]
  · intro opts eopts st item htype hset
    have hto : isToolItem item = false := by
      unfold isToolItem
      rw [htype]
      decide
    have hsame : sameId (IdVal.str opts.threadId) opts.threadId = true := by
      simp [sameId, IdVal.norm]
    have hsame2 : sameId (IdVal.str opts.turnId) opts.turnId = true := by
      simp [sameId, IdVal.norm]
    have hset2 : item.id ∈ st.router.textItemIdsWithDelta := by
      simpa using hset
    cases hraw : eopts.includeRawChunks <;>
      simp [routerStep, emitRaw, hsame, hsame2, hto, htype, hset2, hraw,
        StreamPart.textPayload]

/-- C3 witness: the fallback and recording statements applied at concrete
inputs (an agent message completion with no prior delta emits its full
text, and a processed delta records its item id). -/
theorem item_delta_tracking_and_fallback_witness :
    ((routerStep ⟨"th", "t1"⟩ ⟨"th", "t1", "codex", false, ""⟩
      ⟨⟨⟨[]⟩, [], []⟩, ⟨"txt", "rsn", false, false, ToolExecutionStats.zero⟩⟩
      (.itemCompleted (.str "th") (.str "t1")
        { type := "agentMessage", id := "m1", text := some "final text" })).2.filterMap
      StreamPart.textPayload) = ["final text"] :=
  item_delta_tracking_and_fallback.2.1 ⟨"th", "t1"⟩ ⟨"th", "t1", "codex", false, ""⟩
    ⟨⟨⟨[]⟩, [], []⟩, ⟨"txt", "rsn", false, false, ToolExecutionStats.zero⟩⟩
    { type := "agentMessage", id := "m1", text := some "final text" } "final text"
    (by decide) rfl (by decide) (by decide)

/-- C1. When a turn finishes with status failed and a structured error
whose message is boom, and no text segment was opened before the
turn/completed notification, the output of processing that notification
contains exactly one text delta whose payload is "Error: boom", and it is
followed by the finish event (the last output event), whose finish reason
is not the normalized "stop" (it maps to "error"). -/
theorem turn_failed_error_synthesis
    (opts : NotificationRouterOptions) (eopts : StreamEmitterOptions) (st : SysState)
    (h : st.emitter.textStarted = false) :
    ((routerStep opts eopts st (.turnCompleted (.str opts.threadId)
        ⟨.str opts.turnId, "failed", some { message := some "boom" }⟩)).2.filterMap
        StreamPart.textPayload = ["Error: boom"]) ∧
    (∃ (r : FinishReason) (u : Usage),
      (routerStep opts eopts st (.turnCompleted (.str opts.threadId)
        ⟨.str opts.turnId, "failed", some { message := some "boom" }⟩)).2.getLast? =
        some (.finish r u) ∧ r.unified ≠ "stop") := by
  have hsame : sameId (IdVal.str opts.threadId) opts.threadId = true := by
    simp [sameId, IdVal.norm]
  have hsame2 : sameId (IdVal.str opts.turnId) opts.turnId = true := by
    simp [sameId, IdVal.norm]
  constructor
  · cases hraw : eopts.includeRawChunks <;> cases hrs : st.emitter.reasoningStarted <;>
      simp [routerStep, emitRaw, emitFinish, synthesizeErrorText, emitTextDelta,
        hsame, hsame2, h, hraw, hrs, StreamPart.textPayload]
  · rcases emitFinish_getLast eopts st.emitter (some "failed")
      (some { message := some "boom" }) with ⟨u, hu⟩
    refine ⟨mapFinishReason (some "failed") (some { message := some "boom" }), u, ?_, ?_⟩
    · show (routerStep opts eopts st _).2.getLast? = _
      cases hraw : eopts.includeRawChunks <;>
        · simp only [routerStep, emitRaw, hsame, hsame2, Bool.and_self, if_true, hraw]
          exact getLast?_append_left _ _ _ hu
    · decide

/-- C1 witness: the synthesis statement applied at a concrete fresh
stream state. -/
theorem turn_failed_error_synthesis_witness :
    ((routerStep ⟨"th", "t1"⟩ ⟨"th", "t1", "codex", false, ""⟩
      ⟨⟨⟨[]⟩, [], []⟩, ⟨"txt", "rsn", false, false, ToolExecutionStats.zero⟩⟩
      (.turnCompleted (.str "th")
        ⟨.str "t1", "failed", some { message := some "boom" }⟩)).2.filterMap
      StreamPart.textPayload = ["Error: boom"]) :=
  (turn_failed_error_synthesis ⟨"th", "t1"⟩ ⟨"th", "t1", "codex", false, ""⟩
    ⟨⟨⟨[]⟩, [], []⟩, ⟨"txt", "rsn", false, false, ToolExecutionStats.zero⟩⟩ rfl).1

/-- Helper: the scan of an appended list is the scan of the second part
from the flags the first part reaches. -/
theorem scanParts_append (f : ScanFlags) (a b : List StreamPart) :
    scanParts f (a ++ b) =
      match scanParts f a with
      | some f1 => scanParts f1 b
      | none => none := by
  induction a generalizing f with
  | nil => rfl
  | cons p rest ih =>
    rcases hp : scanPart f p with _ | f1 <;>
      simp [List.cons_append, scanParts, hp, ih]

/-- Helper: the pair produced by running a cons of calls. -/
theorem runCalls_cons (eopts : StreamEmitterOptions) (s : EmitterState)
    (c : EmitterCall) (rest : List EmitterCall) :
    runCalls eopts s (c :: rest) =
      ((runCalls eopts (runCall eopts s c).1 rest).1,
       (runCall eopts s c).2 ++ (runCalls eopts (runCall eopts s c).1 rest).2) := rfl

/-- Helper: any non finish emitter call scans cleanly from flags that
mirror the emitter state, and preserves the closed flags. -/
theorem scanParts_runCall_nonFinish (eopts : StreamEmitterOptions) (s : EmitterState)
    (c : EmitterCall) (tc rc : Bool) (hc : c.isFinish = false) :
    scanParts ⟨s.textStarted, tc, s.reasoningStarted, rc⟩ (runCall eopts s c).2 =
      some ⟨(runCall eopts s c).1.textStarted, tc,
            (runCall eopts s c).1.reasoningStarted, rc⟩ := by
  cases c with
  | streamStart w => simp [runCall, emitStreamStart, scanParts, scanPart]
  | raw m =>
    cases hr : eopts.includeRawChunks <;>
      simp [runCall, emitRaw, hr, scanParts, scanPart]
  | textDelta d =>
    cases hts : s.textStarted <;>
      simp [runCall, emitTextDelta, hts, scanParts, scanPart]
  | reasoningDelta d b =>
    cases hrs : s.reasoningStarted <;>
      simp [runCall, emitReasoningDelta, hrs, scanParts, scanPart]
  | toolInput i tn inp dyn =>
    by_cases hi : (inp != "") = true <;>
      simp [runCall, emitToolInput, hi, scanParts, scanPart]
  | toolCall i tn inp dyn => simp [runCall, emitToolCall, scanParts, scanPart]
  | toolResult i tn res ie dyn => simp [runCall, emitToolResult, scanParts, scanPart]
  | approval i => simp [runCall, emitApprovalRequest, scanParts, scanPart]
  | finish st er => exact absurd hc (by simp [EmitterCall.isFinish])

/-- Helper: the error synthesis step scans cleanly and preserves the
closed flags. -/
theorem scanParts_synthesize (s : EmitterState) (error : Option TurnError)
    (tc rc : Bool) :
    scanParts ⟨s.textStarted, tc, s.reasoningStarted, rc⟩
      (synthesizeErrorText s error).2 =
      some ⟨(synthesizeErrorText s error).1.textStarted, tc,
            (synthesizeErrorText s error).1.reasoningStarted, rc⟩ := by
  unfold synthesizeErrorText
  rcases error with _ | e
  · rfl
  · rcases e with ⟨code, msg, info, extra⟩
    rcases msg with _ | m
    · rfl
    · dsimp only
      split
      · rename_i hcond
        have hts : s.textStarted = false := by
          have h2 := (Bool.and_eq_true _ _).mp hcond
          simpa using h2.2
        simp [emitTextDelta, hts, scanParts, scanPart]
      · rfl

/-- Helper: an emitFinish call scans cleanly from still open closed
flags. -/
theorem scanParts_emitFinish (eopts : StreamEmitterOptions) (s : EmitterState)
    (status : Option String) (error : Option TurnError) :
    ∃ tc2 rc2 : Bool,
      scanParts ⟨s.textStarted, false, s.reasoningStarted, false⟩
        (emitFinish eopts s status error).2 =
      some ⟨(emitFinish eopts s status error).1.textStarted, tc2,
            (emitFinish eopts s status error).1.reasoningStarted, rc2⟩ := by
  have hsynth := scanParts_synthesize s error false false
  rcases hsp : synthesizeErrorText s error with ⟨s1, synth⟩
  rw [hsp] at hsynth
  dsimp only at hsynth
  unfold emitFinish
  rw [hsp]
  dsimp only
  refine ⟨s1.textStarted, s1.reasoningStarted, ?_⟩
  rw [scanParts_append, scanParts_append, hsynth]
  cases hts : s1.textStarted <;> cases hrs : s1.reasoningStarted <;>
    simp [scanParts, scanPart, hts, hrs]

/-- Helper: the generalized scan invariant over any call sequence with at
most one finish, whose closed flags are still clear if a finish is yet to
come. -/
theorem runCalls_scan (eopts : StreamEmitterOptions) :
    ∀ (calls : List EmitterCall) (s : EmitterState) (tc rc : Bool),
      calls.countP (fun c => c.isFinish) ≤ 1 →
      (calls.countP (fun c => c.isFinish) = 1 → tc = false ∧ rc = false) →
      ∃ f1, scanParts ⟨s.textStarted, tc, s.reasoningStarted, rc⟩
        (runCalls eopts s calls).2 = some f1 := by
  intro calls
  induction calls with
  | nil =>
    intro s tc rc _ _
    exact ⟨_, rfl⟩
  | cons c rest ih =>
    intro s tc rc h1 h2
    cases hc : c.isFinish with
    | false =>
      have hcount : (c :: rest).countP (fun x => x.isFinish) =
          rest.countP (fun x => x.isFinish) := by
        simp [List.countP_cons, hc]
      rw [hcount] at h1 h2
      rw [runCalls_cons]
      dsimp only
      rw [scanParts_append, scanParts_runCall_nonFinish eopts s c tc rc hc]
      exact ih (runCall eopts s c).1 tc rc h1 h2
    | true =>
      cases c with
      | streamStart w => simp [EmitterCall.isFinish] at hc
      | raw m => simp [EmitterCall.isFinish] at hc
      | textDelta d => simp [EmitterCall.isFinish] at hc
      | reasoningDelta d b => simp [EmitterCall.isFinish] at hc
      | toolInput i tn inp dyn => simp [EmitterCall.isFinish] at hc
      | toolCall i tn inp dyn => simp [EmitterCall.isFinish] at hc
      | toolResult i tn res ie dyn => simp [EmitterCall.isFinish] at hc
      | approval i => simp [EmitterCall.isFinish] at hc
      | finish status error =>
        have hcount : (EmitterCall.finish status error :: rest).countP
            (fun x => x.isFinish) = rest.countP (fun x => x.isFinish) + 1 := by
          simp [List.countP_cons, EmitterCall.isFinish]
        rw [hcount] at h1 h2
        have hrest0 : rest.countP (fun x => x.isFinish) = 0 := by omega
        rcases h2 (by omega) with ⟨htc, hrc⟩
        subst htc
        subst hrc
        rw [runCalls_cons]
        dsimp only [runCall]
        rw [scanParts_append]
        rcases scanParts_emitFinish eopts s status error with ⟨tc2, rc2, hfin⟩
        rw [hfin]
        exact ih (emitFinish eopts s status error).1 tc2 rc2 (by omega)
          (fun hx => absurd hx (by omega))

/-- C5. For every sequence of emitter calls within one turn (emitFinish
runs at most once per turn, since the completion handler that triggers it
unsubscribes before returning), the output event sequence never contains
a text or reasoning delta before the segment open event of its kind,
never contains two close events for the same segment kind, and contains
a close event of a kind only if that kind's open event was written. -/
theorem emitter_segment_invariants (eopts : StreamEmitterOptions) (s : EmitterState)
    (calls : List EmitterCall)
    (h1 : s.textStarted = false) (h2 : s.reasoningStarted = false)
    (hone : calls.countP (fun c => c.isFinish) ≤ 1) :
    eventsWellFormed (runCalls eopts s calls).2 = true := by
  rcases runCalls_scan eopts calls s false false hone (fun _ => ⟨rfl, rfl⟩) with ⟨f1, hf⟩
  unfold eventsWellFormed
  rw [show (⟨false, false, false, false⟩ : ScanFlags) =
    (⟨s.textStarted, false, s.reasoningStarted, false⟩ : ScanFlags) from by rw [h1, h2]]
  rw [hf]
  rfl

/-- C5 witness: the invariant applied to a concrete call sequence
containing deltas of both kinds and a closing finish. -/
theorem emitter_segment_invariants_witness :
    eventsWellFormed (runCalls ⟨"th", "t1", "codex", false, ""⟩
      ⟨"txt", "rsn", false, false, ToolExecutionStats.zero⟩
      [.textDelta "a", .reasoningDelta "b" true, .textDelta "c",
       .finish (some "completed") none]).2 = true :=
  emitter_segment_invariants ⟨"th", "t1", "codex", false, ""⟩
    ⟨"txt", "rsn", false, false, ToolExecutionStats.zero⟩
    [.textDelta "a", .reasoningDelta "b" true, .textDelta "c",
     .finish (some "completed") none] rfl rfl (by decide)

end CodexAppServer
